import Mathlib

/-!
Verification of the whitespace layout rules of the
`eslint-plugin-whitespaced` repository, shallowly embedded in Lean.

Each rule's relevant functions are translated from the JavaScript source
into executable Lean definitions; positions are modelled as in the source
(1-based lines, 0-based columns, character offsets for ranges).
-/

namespace LineSpacing

/-- Statement categories distinguished by the consistent-line-spacing rule
(`isImport`, `isExport`, and the visitor keys of the rule). -/
inductive NodeType where
  | importDecl
  | exportNamed
  | exportDefault
  | exportAll
  | classDecl
  | funcDecl
  | other
deriving DecidableEq, Repr

/-- Translation of `isImport(node)`: `node.type === "ImportDeclaration"`. -/
def isImportType (t : NodeType) : Bool :=
  t = NodeType.importDecl

/-- Result of a token query: the line span and character range of a token,
as read from `token.loc` and `token.range` in the source. -/
structure TokAnchor where
  startLine : Nat
  endLine : Nat
  rangeStart : Nat
  rangeEnd : Nat
deriving DecidableEq, Repr

/-- Options of the consistent-line-spacing rule that the checks read
(`ignoreTopLevelCode` and `skipImportGroups` with their defaults). -/
structure SpacingOptions where
  ignoreTopLevelCode : Bool := false
  skipImportGroups : Bool := true
deriving DecidableEq, Repr

/-- Everything `checkLinesBefore` / `checkLinesAfter` read about a node and
its surroundings: the node's kind, location and range, the parent queries
`isFirstInParent` / `isLastInParent` / `isTopLevel`, the type of the node
found at the previous / next non-comment token (if any), and the previous /
next token when comments are included. -/
structure SpacingCtx where
  nodeType : NodeType
  nodeStartLine : Nat
  nodeEndLine : Nat
  nodeRangeStart : Nat
  nodeRangeEnd : Nat
  firstInParent : Bool
  lastInParent : Bool
  topLevel : Bool
  prevNodeType : Option NodeType
  nextNodeType : Option NodeType
  prevTokenWithComments : Option TokAnchor
  nextTokenWithComments : Option TokAnchor
deriving DecidableEq, Repr

/-- Message identifiers of the consistent-line-spacing rule. -/
inductive SpacingMsg where
  | missingLinesBefore
  | missingLinesAfter
deriving DecidableEq, Repr

/-- A text edit: replace the character range `[start, stop)` of the source
text with `replacement` (the `fixer.replaceTextRange` call). -/
structure Edit where
  start : Nat
  stop : Nat
  replacement : String
deriving DecidableEq, Repr

/-- A diagnostic of the consistent-line-spacing rule, with the data the
report carries and its fix. -/
structure SpacingDiag where
  msg : SpacingMsg
  expected : Nat
  actual : Int
  fix : Option Edit
deriving DecidableEq, Repr

/-- Translation of `getBlankLinesBetween(node1, node2)`:
`node2.loc.start.line - node1.loc.end.line - 1`.  The identical function
also appears in the block-padding rule. -/
def getBlankLinesBetween (node1End node2Start : Nat) : Int :=
  (node2Start : Int) - (node1End : Int) - 1

/-- Repeated newline string `"\n".repeat(n)`. -/
def newlines (n : Nat) : String :=
  String.mk (List.replicate n '\n')

/-- Translation of `checkLinesBefore(node, requiredLines, nodeType)`.
Returns the diagnostic reported, if any. -/
def checkLinesBefore (opts : SpacingOptions) (c : SpacingCtx)
    (requiredLines : Nat) : Option SpacingDiag :=
  if c.firstInParent && (opts.ignoreTopLevelCode && c.topLevel) then
    none
  else if opts.skipImportGroups && isImportType c.nodeType &&
      (match c.prevNodeType with
       | some t => isImportType t
       | none => false) then
    none
  else
    match c.prevTokenWithComments with
    | none => none
    | some tok =>
      let blankLines : Int := getBlankLinesBetween tok.endLine c.nodeStartLine
      if blankLines ≠ (requiredLines : Int) then
        some { msg := SpacingMsg.missingLinesBefore
               expected := requiredLines
               actual := blankLines
               fix := some { start := tok.rangeEnd
                             stop := c.nodeRangeStart
                             replacement := newlines (requiredLines + 1) } }
      else
        none

/-- Translation of `checkLinesAfter(node, requiredLines, nodeType)`.
Returns the diagnostic reported, if any. -/
def checkLinesAfter (opts : SpacingOptions) (c : SpacingCtx)
    (requiredLines : Nat) : Option SpacingDiag :=
  if c.lastInParent && (opts.ignoreTopLevelCode && c.topLevel) then
    none
  else if opts.skipImportGroups && isImportType c.nodeType &&
      (match c.nextNodeType with
       | some t => isImportType t
       | none => false) then
    none
  else
    match c.nextTokenWithComments with
    | none => none
    | some tok =>
      let blankLines : Int := getBlankLinesBetween c.nodeEndLine tok.startLine
      if blankLines ≠ (requiredLines : Nat) then
        some { msg := SpacingMsg.missingLinesAfter
               expected := requiredLines
               actual := blankLines
               fix := some { start := c.nodeRangeEnd
                             stop := tok.rangeStart
                             replacement := newlines (requiredLines + 1) } }
      else
        none

end LineSpacing

namespace BlockPadding

/-- Comment token kinds (`comment.type` is `"Block"` or `"Line"`). -/
inductive CommentType where
  | block
  | line
deriving DecidableEq, Repr

/-- A comment as the block-padding rule reads it: its type and its text
(`comment.value`, the text between the comment delimiters). -/
structure Comment where
  type : CommentType
  value : String
deriving DecidableEq, Repr

/-- Word character of the JavaScript regex class `\w`:
`[A-Za-z0-9_]`. -/
def isWordChar (c : Char) : Bool :=
  (('a' ≤ c && c ≤ 'z') || ('A' ≤ c && c ≤ 'Z') || ('0' ≤ c && c ≤ '9') || c = '_')

/-- Does the list start with the given pattern? -/
def lStartsWith : List Char → List Char → Bool
  | _, [] => true
  | [], _ :: _ => false
  | c :: s, p :: ps => c = p && lStartsWith s ps

/-- Does an alternative of the docstring regex
`/\s*@\w+|param|return|description|example|author/` match at the start of
the list?  Since `\s*` may match the empty string, the first alternative
matches here exactly when the list starts with `@` followed by a word
character. -/
def docRegexMatchAt (s : List Char) : Bool :=
  (match s with
   | '@' :: d :: _ => isWordChar d
   | _ => false) ||
  lStartsWith s ("param".data) ||
  lStartsWith s ("return".data) ||
  lStartsWith s ("description".data) ||
  lStartsWith s ("example".data) ||
  lStartsWith s ("author".data)

/-- Translation of the regex test
`/\s*@\w+|param|return|description|example|author/.test(text)`:
some alternative matches at some position of the text.  Note the regex has
no `i` flag, so the keyword alternatives are case-sensitive. -/
def docRegexTest : List Char → Bool
  | [] => false
  | c :: rest => docRegexMatchAt (c :: rest) || docRegexTest rest

/-- Translation of `isDocstring(comment)` of the block-padding rule:
a `Block` comment is a docstring when its text contains a newline or the
docstring regex matches; every other comment is not a docstring. -/
def isDocstring (comment : Comment) : Bool :=
  if comment.type = CommentType.block then
    let commentText := comment.value
    let isMultilineC := commentText.data.contains '\n'
    let hasDocstringPatterns := docRegexTest commentText.data
    isMultilineC || hasDocstringPatterns
  else
    false

/-- Spec-side reading of the documentation-block heuristic: a block text
matches the pattern when it holds an at-sign-prefixed tag or one of the
words param / return / description / example / author as a substring.
Written from the specification's words for comparison with the source's
`isDocstring`. -/
def atTagOccurs : List Char → Bool
  | [] => false
  | c :: rest =>
    (match c :: rest with
     | '@' :: d :: _ => isWordChar d
     | _ => false) || atTagOccurs rest

/-- Substring occurrence: the pattern occurs at some position. -/
def substrOccurs (pat : List Char) : List Char → Bool
  | [] => lStartsWith [] pat
  | c :: rest => lStartsWith (c :: rest) pat || substrOccurs pat rest

/-- Keyword list of the documentation-block heuristic, as the spec lists
it. -/
def docKeywords : List String :=
  ["param", "return", "description", "example", "author"]

/-- Spec-side pattern predicate: an at-tag occurs or some keyword occurs
as a substring (matched case-sensitively, as the source regex has no `i`
flag). -/
def docPatternSpec (s : String) : Bool :=
  atTagOccurs s.data || docKeywords.any (fun k => substrOccurs k.data s.data)

/-- Nodes as the root-level padding check reads them: the line span
(`node.loc`), the end of the node's last token and the start of its first
token (`getLastToken(node).range[1]` and `getFirstToken(node).range[0]`). -/
structure RNode where
  startLine : Nat
  endLine : Nat
  firstTokStart : Nat
  lastTokEnd : Nat
deriving DecidableEq, Repr

/-- Translation of the block-padding rule's `getBlankLinesBetween`. -/
def getBlankLinesBetweenNodes (node1 node2 : RNode) : Int :=
  (node2.startLine : Int) - (node1.endLine : Int) - 1

/-- A diagnostic of the root-level padding check with the report's data
and fix. -/
structure PaddingDiag where
  nodeStartLine : Nat
  expected : Nat
  actual : Int
  fix : LineSpacing.Edit
deriving DecidableEq, Repr

/-- Diagnostic built for a violating pair by `checkRootLevelBlankLines`:
reported at the next node, with the blank-line counts, and a fix replacing
`[lastToken(current).range[1], firstToken(next).range[0])` by
`"\n".repeat(rootBlockPadding + 1)`. -/
def rootDiag (rootBlockPadding : Nat) (currentNode nextNode : RNode) :
    PaddingDiag :=
  { nodeStartLine := nextNode.startLine
    expected := rootBlockPadding
    actual := getBlankLinesBetweenNodes currentNode nextNode
    fix := { start := currentNode.lastTokEnd
             stop := nextNode.firstTokStart
             replacement := LineSpacing.newlines (rootBlockPadding + 1) } }

/-- Translation of `checkRootLevelBlankLines(nodes)`: for each pair of
consecutive nodes, report when the blank-line count differs from
`rootBlockPadding`. -/
def checkRootLevelBlankLines (rootBlockPadding : Nat) :
    List RNode → List PaddingDiag
  | [] => []
  | [_] => []
  | currentNode :: nextNode :: rest =>
    (if getBlankLinesBetweenNodes currentNode nextNode ≠ (rootBlockPadding : Int) then
      [rootDiag rootBlockPadding currentNode nextNode]
    else []) ++ checkRootLevelBlankLines rootBlockPadding (nextNode :: rest)

/-- Consecutive pairs of a list, in order. -/
def adjPairs : List RNode → List (RNode × RNode)
  | [] => []
  | [_] => []
  | a :: b :: rest => (a, b) :: adjPairs (b :: rest)

end BlockPadding

namespace AlignedAssignments

/-- A declarator with an initializer, carrying the values the
aligned-assignments rule reads from the source: the declarator's location
(`declarator.loc`, 0-based columns), the parent declaration's keyword
(`declarator.parent.kind`), the texts of the identifier, the optional type
ascription and the initializer, the column of the `=` token
(`getEqualsColumn`), the column of the type colon token when a type
ascription is present (`getTypeColonColumn`), and the declarator's full
original text. -/
structure Declarator where
  startColumn : Nat
  startLine : Nat
  endLine : Nat
  kind : String
  idText : String
  typeText : Option String
  typeColonColumn : Option Nat
  equalsColumn : Nat
  initText : String
  originalText : String
deriving DecidableEq, Repr

/-- Options of the aligned-assignments rule used by `checkAlignment`. -/
structure AlignOptions where
  blockSize : Nat := 2
  ignoreIfAssignmentsNotInBlock : Bool := true
  alignTypes : Bool := false
  ignoreTypesMismatch : Bool := true
deriving DecidableEq, Repr

/-- Message identifiers of the aligned-assignments rule. -/
inductive AlignMsg where
  | misalignedAssignment
  | misalignedTypes
deriving DecidableEq, Repr

/-- A report of `checkAlignment`: the offending declarator, the message,
and the replacement text of the offered fix (the fix replaces the whole
declarator's text). -/
structure AlignReport where
  declarator : Declarator
  msg : AlignMsg
  fixText : String
deriving DecidableEq, Repr

/-- Space string `" ".repeat(n)`.  JavaScript throws on a negative count;
the claims are evaluated only where the count is non-negative, and natural
subtraction is used at the call sites. -/
def spacesStr (n : Nat) : String :=
  String.mk (List.replicate n ' ')

/-- Translation of `haveSameKind(declarations)`: every declarator's parent
keyword equals the first one's. -/
def haveSameKind : List Declarator → Bool
  | [] => true
  | d :: rest => (d :: rest).all (fun e => e.kind = d.kind)

/-- Translation of `getMaxEqualsColumn(declarations)`:
`Math.max` over the `=` columns.  Every declarator here has an initializer
so its `=` token exists; the fold from `0` agrees with `Math.max` on the
non-empty lists the rule passes (columns are non-negative). -/
def getMaxEqualsColumn (declarations : List Declarator) : Nat :=
  declarations.foldl (fun m d => max m d.equalsColumn) 0

/-- Translation of `getMaxTypeColonColumn(declarations)`: maximum over the
declarators that carry a type colon, or none when no declarator does. -/
def getMaxTypeColonColumn (declarations : List Declarator) : Option Nat :=
  let columns := declarations.filterMap (fun d => d.typeColonColumn)
  match columns with
  | [] => none
  | c :: cs => some ((c :: cs).foldl max 0)

/-- Translation of `getFixedDeclaration(declarator, targetEqualsColumn,
targetTypeColumn)`.  Mirrors the source exactly: the guard
`if (!equalsColumn)` treats column `0` (and a missing token) as falsy; the
identifier is right-padded so that `targetEqualsColumn - currentEndPos`
spaces stand before `"= "`, where `currentEndPos` is the identifier text's
length (or type colon column plus type text length when a type ascription
is present). -/
def getFixedDeclaration (d : Declarator) (targetEqualsColumn : Nat)
    (targetTypeColumn : Option Nat) : String :=
  if d.equalsColumn = 0 then
    d.originalText
  else
    let result := d.idText
    let result :=
      match d.typeText, targetTypeColumn with
      | some typeText, some tc =>
        result ++ spacesStr (tc - (d.idText.length + result.length)) ++ typeText
      | _, _ => result
    let currentEndPos :=
      match d.typeText, d.typeColonColumn with
      | some typeText, some tc => tc + typeText.length
      | _, _ => d.idText.length
    result ++ spacesStr (targetEqualsColumn - currentEndPos) ++ "= " ++ d.initText

/-- Translation of `checkAlignment(declarations)`: below the block-size
threshold or on mixed keywords (with `ignoreIfAssignmentsNotInBlock`) the
run is ignored; otherwise each declarator whose `=` column differs from
the maximum is reported with a fix, and, when type alignment applies, each
declarator whose type colon column differs from the maximum type column is
reported as well. -/
def checkAlignment (opts : AlignOptions) (declarations : List Declarator) :
    List AlignReport :=
  if declarations.length < opts.blockSize then
    []
  else if opts.ignoreIfAssignmentsNotInBlock && !haveSameKind declarations then
    []
  else
    let maxEqualsColumn := getMaxEqualsColumn declarations
    let maxTypeColonColumn : Option Nat :=
      if opts.alignTypes && declarations.any (fun d => d.typeText.isSome) then
        if opts.ignoreTypesMismatch &&
            !(declarations.all (fun d => d.typeText.isSome)) then
          none
        else
          getMaxTypeColonColumn declarations
      else
        none
    declarations.foldr
      (fun d acc =>
        (if d.equalsColumn ≠ maxEqualsColumn then
          [{ declarator := d
             msg := AlignMsg.misalignedAssignment
             fixText := getFixedDeclaration d maxEqualsColumn maxTypeColonColumn }]
        else []) ++
        (match opts.alignTypes, maxTypeColonColumn with
         | true, some mt =>
           (match d.typeColonColumn with
            | some tc =>
              if tc ≠ mt then
                [{ declarator := d
                   msg := AlignMsg.misalignedTypes
                   fixText := getFixedDeclaration d maxEqualsColumn maxTypeColonColumn }]
              else []
            | none => [])
         | _, _ => []) ++ acc)
      []

/-- Column at which the `=` operator lands after the fix: the fix replaces
the declarator's text starting at the declarator's own start column, so
the operator's new column is the start column plus the index of the first
`=` character in the replacement text (the replacement is a single line
for these inputs). -/
def fixedEqualsColumn (d : Declarator) (fixText : String) : Nat :=
  d.startColumn + fixText.data.findIdx (fun c => c = '=')

end AlignedAssignments

namespace ClassGrouping

/-- A configured member group: its name and numeric order (the schema
enforces a non-negative order). -/
structure Group where
  name : String
  order : Nat
deriving DecidableEq, Repr

/-- A class member after classification: its name (`getMemberName`) and
the group `getMemberGroup` matched it to, if any. -/
structure Member where
  name : String
  group : Option Group
deriving DecidableEq, Repr

/-- A diagnostic of the group-order check, naming the offending member,
the expected (previous) group and the actual group. -/
structure OrderDiag where
  memberName : String
  expectedGroup : Option Group
  actualGroup : Group
deriving DecidableEq, Repr

/-- Walk of `checkGroupOrder`: `lastGroupOrder` starts at `-1` and
`lastGroup` at null; unmatched members are skipped; a matched member whose
group order is below the previous matched member's order is reported. -/
def goOrder (lastGroupOrder : Int) (lastGroup : Option Group) :
    List Member → List OrderDiag
  | [] => []
  | m :: rest =>
    match m.group with
    | none => goOrder lastGroupOrder lastGroup rest
    | some g =>
      (if (g.order : Int) < lastGroupOrder then
        [{ memberName := m.name, expectedGroup := lastGroup, actualGroup := g }]
      else []) ++ goOrder (g.order : Int) (some g) rest

/-- Translation of `checkGroupOrder(members)`. -/
def checkGroupOrder (members : List Member) : List OrderDiag :=
  goOrder (-1) none members

/-- Matched members in source order: name and matched group of each member
that was matched to a group. -/
def matchedMembers (members : List Member) : List (String × Group) :=
  members.filterMap (fun m => m.group.map (fun g => (m.name, g)))

/-- Spec-side description of the order check: walking the matched members
in source order, each consecutive pair whose later group order is smaller
than the earlier one yields a diagnostic at the later member, naming the
earlier (expected) group and the actual group. -/
def specOrderDiags : List (String × Group) → List OrderDiag
  | [] => []
  | [_] => []
  | (_, ga) :: (nb, gb) :: rest =>
    (if gb.order < ga.order then
      [{ memberName := nb, expectedGroup := some ga, actualGroup := gb }]
    else []) ++ specOrderDiags ((nb, gb) :: rest)

end ClassGrouping

namespace MultilineFormat

/-- Values of the `multilineStyle` option. -/
inductive MStyle where
  | consistent
  | always
  | never
deriving DecidableEq, Repr

/-- Values of the `bracketStyle` option. -/
inductive BStyle where
  | sameLine
  | newLine
deriving DecidableEq, Repr

/-- Values of the `trailingComma` option. -/
inductive TComma where
  | always
  | never
deriving DecidableEq, Repr

/-- Values of the `objectAlignment` option. -/
inductive OAlign where
  | colon
  | value
  | none
deriving DecidableEq, Repr

/-- Options of the multiline-format rule, with the source defaults. -/
structure MFConfig where
  allowSingleLine : Bool := true
  multilineStyle : MStyle := MStyle.consistent
  minItems : Nat := 3
  maxLineLength : Nat := 80
  bracketStyle : BStyle := BStyle.sameLine
  indentation : Nat := 2
  trailingComma : TComma := TComma.always
  consistentSpacing : Bool := true
  objectAlignment : OAlign := OAlign.none
deriving DecidableEq, Repr

/-- Message identifiers of the multiline-format rule. -/
inductive MMsg where
  | singleLineToMultiline
  | inconsistentNewlines
  | inconsistentIndentation
  | missingTrailingComma
  | unexpectedTrailingComma
  | inconsistentSpacing
  | incorrectColonAlignment
deriving DecidableEq, Repr

/-- Fix offered with a multiline-format diagnostic: a full reconstruction
of the literal (`fixer.replaceText(node, createFixedText(...))`), a pure
insertion directly after a position (`fixer.insertTextAfter`), or a range
removal (`fixer.removeRange`). -/
inductive MFix where
  | reconstruct
  | insertAfter (pos : Nat) (s : String)
  | removeRange (start stop : Nat)
deriving DecidableEq, Repr

/-- A multiline-format diagnostic. -/
structure MDiag where
  msg : MMsg
  fix : MFix
deriving DecidableEq, Repr

/-- A token as the trailing-separator check reads it
(`getTokenAfter(lastItem)`). -/
structure MTok where
  value : String
  rangeStart : Nat
  rangeEnd : Nat
deriving DecidableEq, Repr

/-- An array element (or object property) position: the line and column of
its first token, its end line, and the end of its character range. -/
structure Item where
  startLine : Nat
  endLine : Nat
  startColumn : Nat
  rangeEnd : Nat
deriving DecidableEq, Repr

/-- Colon token data of an object property, as `hasConsistentColonSpacing`
and the colon-alignment check read it: the colon token's range and column,
the end of the token before it and the start of the token after it. -/
structure ColonInfo where
  rangeStart : Nat
  rangeEnd : Nat
  column : Nat
  prevTokEnd : Nat
  nextTokStart : Nat
deriving DecidableEq, Repr

/-- An object property: whether its node type is `"Property"`, whether it
has a key, its position data, and its colon token when one exists. -/
structure OProp where
  isProp : Bool
  hasKey : Bool
  startLine : Nat
  endLine : Nat
  startColumn : Nat
  rangeEnd : Nat
  colon : Option ColonInfo
deriving DecidableEq, Repr

/-- An array literal as the rule reads it: the open bracket's line and
column, the close bracket's start line, the source slice from the first to
the last token, the element list (`null` holes of sparse arrays are
`none`), and the token after the last non-null element. -/
structure ALit where
  openLine : Nat
  openColumn : Nat
  closeLine : Nat
  srcText : String
  elements : List (Option Item)
  tokenAfterLast : Option MTok
deriving DecidableEq, Repr

/-- An object literal as the rule reads it. -/
structure OLit where
  openLine : Nat
  openColumn : Nat
  closeLine : Nat
  srcText : String
  props : List OProp
  tokenAfterLast : Option MTok
deriving DecidableEq, Repr

/-- JavaScript whitespace characters matched by `\s` (the ASCII ones;
source texts here are ASCII). -/
def isJsSpace (c : Char) : Bool :=
  c = ' ' || c = '\t' || c = '\n' || c = '\r' || c = '\x0b' || c = '\x0c'

/-- Translation of `.replace(/\n\s*/g, ' ')`: each newline together with
the maximal whitespace run following it becomes a single space.  The flag
records whether the scan is inside the whitespace run of a match. -/
def collapseRun : Bool → List Char → List Char
  | _, [] => []
  | true, c :: rest =>
    if isJsSpace c then collapseRun true rest
    else c :: collapseRun false rest
  | false, c :: rest =>
    if c = '\n' then ' ' :: collapseRun true rest
    else c :: collapseRun false rest

/-- Single-line rendering used by `wouldExceedMaxLineLength`. -/
def collapseNewlines (s : String) : String :=
  String.mk (collapseRun false s.data)

/-- Translation of `wouldExceedMaxLineLength(node)`: the literal's start
column plus the length of its collapsed single-line text exceeds
`maxLineLength`. -/
def wouldExceed (cfg : MFConfig) (startColumn : Nat) (srcText : String) : Bool :=
  startColumn + (collapseNewlines srcText).length > cfg.maxLineLength

/-- Line span of an element. -/
structure LineSpan where
  startLine : Nat
  endLine : Nat
deriving DecidableEq, Repr

/-- Translation of `allElementsOnSameLine(node, elements)`. -/
def allElementsOnSameLine : List LineSpan → Bool
  | [] => true
  | e :: rest => (e :: rest).all (fun x => x.startLine = e.startLine)

/-- Translation of `allElementsOnSeparateLines(node, elements)`. -/
def allElementsOnSeparateLines (cfg : MFConfig) (openLine closeLine : Nat) :
    List LineSpan → Bool
  | [] => true
  | e :: rest =>
    let elements := e :: rest
    if cfg.bracketStyle = BStyle.newLine && openLine = e.startLine then
      false
    else if (elements.zip elements.tail).any
        (fun p => p.1.endLine = p.2.startLine) then
      false
    else if (elements.getLast (by simp [elements])).endLine = closeLine then
      false
    else
      true

/-- Line span of an array element. -/
def Item.span (e : Item) : LineSpan :=
  { startLine := e.startLine, endLine := e.endLine }

/-- Line span of an object property. -/
def OProp.span (p : OProp) : LineSpan :=
  { startLine := p.startLine, endLine := p.endLine }

/-- Translation of `hasConsistentColonSpacing(node)`: over the `Property`
entries, the whitespace widths before and after each colon must agree with
the first entry's. -/
def hasConsistentColonSpacing (props : List OProp) : Bool :=
  let properties := props.filter (fun p => p.isProp)
  if properties.length ≤ 1 then
    true
  else
    let spacings := properties.filterMap
      (fun p => p.colon.map
        (fun c => (c.rangeStart - c.prevTokEnd, c.nextTokStart - c.rangeEnd)))
    if spacings.length ≤ 1 then
      true
    else
      match spacings with
      | [] => true
      | s :: rest => (s :: rest).all (fun x => x = s)

/-- Checks run by `processArrayExpression` on an already-multiline array
literal: item indentation, newline consistency, trailing separator, in
order, stopping at the first failure. -/
def arrayMultilineChecks (cfg : MFConfig) (a : ALit) : List MDiag :=
  let expectedIndent := a.openColumn + cfg.indentation
  let nonNullElements := a.elements.filterMap id
  let itemsWithWrongIndent := nonNullElements.filter
    (fun e => e.startLine ≠ a.openLine && e.startColumn ≠ expectedIndent)
  if itemsWithWrongIndent.length > 0 then
    [{ msg := MMsg.inconsistentIndentation, fix := MFix.reconstruct }]
  else if !allElementsOnSeparateLines cfg a.openLine a.closeLine
      (nonNullElements.map Item.span) &&
      cfg.multilineStyle = MStyle.always then
    [{ msg := MMsg.inconsistentNewlines, fix := MFix.reconstruct }]
  else
    match nonNullElements.getLast? with
    | none => []
    | some lastElem =>
      match a.tokenAfterLast with
      | none => []
      | some tok =>
        if cfg.trailingComma = TComma.always && tok.value ≠ "," then
          [{ msg := MMsg.missingTrailingComma
             fix := MFix.insertAfter lastElem.rangeEnd "," }]
        else if cfg.trailingComma = TComma.never && tok.value = "," then
          [{ msg := MMsg.unexpectedTrailingComma
             fix := MFix.removeRange lastElem.rangeEnd tok.rangeEnd }]
        else
          []

/-- Translation of `processArrayExpression(node)`: the sequence of checks
with their early returns, producing the diagnostics reported. -/
def processArrayExpression (cfg : MFConfig) (a : ALit) : List MDiag :=
  if a.elements.length = 0 then
    []
  else
    let shouldBeMultiline :=
      decide (a.elements.length ≥ cfg.minItems) ||
      wouldExceed cfg a.openColumn a.srcText ||
      decide (cfg.multilineStyle = MStyle.always)
    let isNodeMultiline := a.openLine ≠ a.closeLine
    if shouldBeMultiline && !isNodeMultiline &&
        cfg.multilineStyle ≠ MStyle.never then
      [{ msg := MMsg.singleLineToMultiline, fix := MFix.reconstruct }]
    else if isNodeMultiline then
      arrayMultilineChecks cfg a
    else
      []

/-- Colon-alignment check of `processObjectExpression` (reached only when
`objectAlignment` is `colon` and more than one property exists): the
columns of the colon tokens must all agree.  The `filter(Boolean)` of the
source drops both missing colons and a colon at column 0. -/
def objectColonAlignmentCheck (o : OLit) : List MDiag :=
  let propsWithKeys := o.props.filter (fun p => p.isProp && p.hasKey)
  if propsWithKeys.length ≤ 1 then
    []
  else
    let colonPositions :=
      (propsWithKeys.filterMap (fun p => p.colon.map
        (fun c => c.column))).filter (fun c => c ≠ 0)
    if colonPositions.length > 1 then
      match colonPositions with
      | [] => []
      | c :: rest =>
        if !(c :: rest).all (fun x => x = c) then
          [{ msg := MMsg.incorrectColonAlignment, fix := MFix.reconstruct }]
        else []
    else
      []

/-- Checks run by `processObjectExpression` on an already-multiline object
literal: indentation, newline consistency, trailing separator, colon
spacing and colon alignment, in order, stopping at the first failure.
When neither trailing-separator branch fires, control falls through to
the spacing and alignment checks, exactly as in the source. -/
def objectMultilineChecks (cfg : MFConfig) (o : OLit) : List MDiag :=
  let expectedIndent := o.openColumn + cfg.indentation
  let itemsWithWrongIndent := o.props.filter
    (fun p => p.startLine ≠ o.openLine && p.startColumn ≠ expectedIndent)
  if itemsWithWrongIndent.length > 0 then
    [{ msg := MMsg.inconsistentIndentation, fix := MFix.reconstruct }]
  else if !allElementsOnSeparateLines cfg o.openLine o.closeLine
      (o.props.map OProp.span) &&
      cfg.multilineStyle = MStyle.always then
    [{ msg := MMsg.inconsistentNewlines, fix := MFix.reconstruct }]
  else
    match o.props.getLast? with
    | none => []
    | some lastProp =>
      if cfg.trailingComma = TComma.always &&
          (match o.tokenAfterLast with
           | some tok => tok.value ≠ ","
           | none => false) then
        [{ msg := MMsg.missingTrailingComma
           fix := MFix.insertAfter lastProp.rangeEnd "," }]
      else if cfg.trailingComma = TComma.never &&
          (match o.tokenAfterLast with
           | some tok => tok.value = ","
           | none => false) then
        match o.tokenAfterLast with
        | some tok =>
          [{ msg := MMsg.unexpectedTrailingComma
             fix := MFix.removeRange lastProp.rangeEnd tok.rangeEnd }]
        | none => []
      else if cfg.consistentSpacing &&
          !hasConsistentColonSpacing o.props then
        [{ msg := MMsg.inconsistentSpacing, fix := MFix.reconstruct }]
      else if cfg.objectAlignment = OAlign.colon && o.props.length > 1 then
        objectColonAlignmentCheck o
      else
        []

/-- Translation of `processObjectExpression(node)`: the sequence of checks
with their early returns, producing the diagnostics reported. -/
def processObjectExpression (cfg : MFConfig) (o : OLit) : List MDiag :=
  if o.props.length = 0 then
    []
  else
    let shouldBeMultiline :=
      decide (o.props.length ≥ cfg.minItems) ||
      wouldExceed cfg o.openColumn o.srcText ||
      decide (cfg.multilineStyle = MStyle.always)
    let isNodeMultiline := o.openLine ≠ o.closeLine
    if shouldBeMultiline && !isNodeMultiline &&
        cfg.multilineStyle ≠ MStyle.never then
      [{ msg := MMsg.singleLineToMultiline, fix := MFix.reconstruct }]
    else if isNodeMultiline then
      objectMultilineChecks cfg o
    else
      []

/-- Application of a single range edit to the source text: the characters
of `[start, stop)` are replaced by `replacement` and every other character
is kept. -/
def applyRangeEdit (text : String) (start stop : Nat) (replacement : String) :
    String :=
  String.mk (text.data.take start ++ replacement.data ++ text.data.drop stop)

end MultilineFormat

section DemoInputs

/-- Declarator `a = 1` of `const a = 1;` on line 1: the declarator starts
at column 6 (after `const `), its `=` token is at column 8. -/
def alignDemoA : AlignedAssignments.Declarator :=
  { startColumn := 6, startLine := 1, endLine := 1, kind := "const"
    idText := "a", typeText := none, typeColonColumn := none
    equalsColumn := 8, initText := "1", originalText := "a = 1" }

/-- Declarator `longName = 2` of `const longName = 2;` on line 2: it
starts at column 6, its `=` token is at column 15. -/
def alignDemoB : AlignedAssignments.Declarator :=
  { startColumn := 6, startLine := 2, endLine := 2, kind := "const"
    idText := "longName", typeText := none, typeColonColumn := none
    equalsColumn := 15, initText := "2", originalText := "longName = 2" }

/-- Default options of the aligned-assignments rule. -/
def alignDefaultOpts : AlignedAssignments.AlignOptions := {}

/-- The first declarator after the rule's fix has been applied: its text
is `a` followed by fourteen spaces and `= 1`, so its `=` token now sits at
column 6 + 15 = 21. -/
def alignDemoAFixed : AlignedAssignments.Declarator :=
  { startColumn := 6, startLine := 1, endLine := 1, kind := "const"
    idText := "a", typeText := none, typeColonColumn := none
    equalsColumn := 21, initText := "1"
    originalText := "a              = 1" }

/-- An export declaration on line 2 directly following another export
declaration that ends on line 1 (its last token ends at offset 29), with
zero blank lines between them. -/
def exportAdjacentCtx : LineSpacing.SpacingCtx :=
  { nodeType := LineSpacing.NodeType.exportNamed
    nodeStartLine := 2, nodeEndLine := 2
    nodeRangeStart := 30, nodeRangeEnd := 60
    firstInParent := false, lastInParent := true, topLevel := true
    prevNodeType := some LineSpacing.NodeType.exportNamed
    nextNodeType := none
    prevTokenWithComments := some { startLine := 1, endLine := 1, rangeStart := 28, rangeEnd := 29 }
    nextTokenWithComments := none }

/-- An import declaration on line 2 directly following another import
declaration, with zero blank lines between them. -/
def importAdjacentCtx : LineSpacing.SpacingCtx :=
  { nodeType := LineSpacing.NodeType.importDecl
    nodeStartLine := 2, nodeEndLine := 2
    nodeRangeStart := 30, nodeRangeEnd := 60
    firstInParent := false, lastInParent := false, topLevel := true
    prevNodeType := some LineSpacing.NodeType.importDecl
    nextNodeType := some LineSpacing.NodeType.importDecl
    prevTokenWithComments := some { startLine := 1, endLine := 1, rangeStart := 28, rangeEnd := 29 }
    nextTokenWithComments := some { startLine := 3, endLine := 3, rangeStart := 61, rangeEnd := 67 } }

/-- A node that is first and last in the file: no token precedes or
follows it. -/
def boundaryCtx : LineSpacing.SpacingCtx :=
  { nodeType := LineSpacing.NodeType.funcDecl
    nodeStartLine := 1, nodeEndLine := 3
    nodeRangeStart := 0, nodeRangeEnd := 25
    firstInParent := true, lastInParent := true, topLevel := true
    prevNodeType := none, nextNodeType := none
    prevTokenWithComments := none, nextTokenWithComments := none }

/-- Two root-level sibling declarations with zero blank lines between
them: the first spans lines 1-3 (last token ends at offset 40), the
second starts on line 4 (first token at offset 41). -/
def rootDemo1 : BlockPadding.RNode :=
  { startLine := 1, endLine := 3, firstTokStart := 0, lastTokEnd := 40 }

/-- Second root-level node of the demo pair. -/
def rootDemo2 : BlockPadding.RNode :=
  { startLine := 4, endLine := 6, firstTokStart := 41, lastTokEnd := 80 }

/-- Class members in the default group order: a static property (order 0)
followed by the constructor (order 3) and an instance method (order 4). -/
def groupDemoMembers : List ClassGrouping.Member :=
  [ { name := "count", group := some { name := "static-properties", order := 0 } }
  , { name := "constructor", group := some { name := "constructor", order := 3 } }
  , { name := "run", group := some { name := "instance-methods", order := 4 } } ]

/-- Default multiline-format configuration (minItems 3, maxLineLength 80,
consistent style, trailing separator always). -/
def mfDefaultCfg : MultilineFormat.MFConfig := {}

/-- A one-line array literal `[1, 2]` with two short elements, at the
start of a line. -/
def c3DemoArr : MultilineFormat.ALit :=
  { openLine := 1, openColumn := 13, closeLine := 1, srcText := "[1, 2]"
    elements :=
      [ some { startLine := 1, endLine := 1, startColumn := 14, rangeEnd := 15 }
      , some { startLine := 1, endLine := 1, startColumn := 17, rangeEnd := 18 } ]
    tokenAfterLast := some { value := "]", rangeStart := 18, rangeEnd := 19 } }

/-- An empty object literal. -/
def c10DemoObj : MultilineFormat.OLit :=
  { openLine := 1, openColumn := 0, closeLine := 1, srcText := "\x7b\x7d"
    props := [], tokenAfterLast := none }

/-- An empty array literal. -/
def c10DemoArr : MultilineFormat.ALit :=
  { openLine := 1, openColumn := 0, closeLine := 1, srcText := "[]"
    elements := [], tokenAfterLast := none }

/-- Configuration with `trailingComma` set to `never`. -/
def trailingNeverCfg : MultilineFormat.MFConfig :=
  { trailingComma := MultilineFormat.TComma.never }

/-- Source text of a multiline array whose single element `1` is followed
by a space and then the trailing separator: offsets 0 `[`, 1 newline,
2-3 spaces, 4 `1`, 5 space, 6 `,`, 7 newline, 8 `]`. -/
def trailingDemoText : String := "[\n  1 ,\n]"

/-- The single element `1` of `trailingDemoText`, at range `[4, 5)` on
line 2. -/
def trailingDemoItem : MultilineFormat.Item :=
  { startLine := 2, endLine := 2, startColumn := 2, rangeEnd := 5 }

/-- The separator token of `trailingDemoText`, at range `[6, 7)`. -/
def trailingDemoComma : MultilineFormat.MTok :=
  { value := ",", rangeStart := 6, rangeEnd := 7 }

/-- The multiline array literal of `trailingDemoText`. -/
def trailingDemoArr : MultilineFormat.ALit :=
  { openLine := 1, openColumn := 0, closeLine := 3, srcText := trailingDemoText
    elements := [some trailingDemoItem]
    tokenAfterLast := some trailingDemoComma }

/-- A multiline object literal with two properties and no separator after
the last property.  Character offsets: 0 open bracket, 1 newline, 2-3
spaces, `a: 1` at `[4, 8)`, separator at 8, newline at 9, spaces 10-11,
`b: 2` at `[12, 16)`, newline at 16, close bracket at 17. -/
def objDemoText : String := "\x7b\n  a: 1,\n  b: 2\n\x7d"

/-- The last property `b: 2` of `objDemoText`, ending at offset 16. -/
def objDemoLastProp : MultilineFormat.OProp :=
  { isProp := true, hasKey := true, startLine := 3, endLine := 3
    startColumn := 2, rangeEnd := 16
    colon := some { rangeStart := 13, rangeEnd := 14, column := 3
                    prevTokEnd := 13, nextTokStart := 15 } }

/-- The closing bracket token of `objDemoText`, at range `[17, 18)`. -/
def objDemoCloseTok : MultilineFormat.MTok :=
  { value := "\x7d", rangeStart := 17, rangeEnd := 18 }

/-- The object literal of `objDemoText`: two properties on lines 2 and 3
at column 2, the last one ending at offset 16; the token after it is the
closing bracket. -/
def objDemoLit : MultilineFormat.OLit :=
  { openLine := 1, openColumn := 0, closeLine := 4, srcText := objDemoText
    props :=
      [ { isProp := true, hasKey := true, startLine := 2, endLine := 2
          startColumn := 2, rangeEnd := 8
          colon := some { rangeStart := 5, rangeEnd := 6, column := 3
                          prevTokEnd := 5, nextTokStart := 7 } }
      , objDemoLastProp ]
    tokenAfterLast := some objDemoCloseTok }

/-- Multiline-format configuration with `multilineStyle` set to
`always`. -/
def mfAlwaysCfg : MultilineFormat.MFConfig :=
  { multilineStyle := MultilineFormat.MStyle.always }

end DemoInputs

/-- C2: for every pair of anchors `a` and `b` with `b` starting on a later
line than `a` ends, the blank-line count used by the rules equals
`b.startLine - a.endLine - 1`; it is `0` when `b` starts on the line
immediately after `a` ends, and it is never negative for such inputs.
Both rules' copies of `getBlankLinesBetween` are covered. -/
theorem C2_blank_line_arithmetic (a b : BlockPadding.RNode)
    (h : a.endLine < b.startLine) :
    BlockPadding.getBlankLinesBetweenNodes a b
        = (b.startLine : Int) - (a.endLine : Int) - 1
  ∧ LineSpacing.getBlankLinesBetween a.endLine b.startLine
        = (b.startLine : Int) - (a.endLine : Int) - 1
  ∧ (b.startLine = a.endLine + 1 → BlockPadding.getBlankLinesBetweenNodes a b = 0)
  ∧ 0 ≤ BlockPadding.getBlankLinesBetweenNodes a b := by
  unfold BlockPadding.getBlankLinesBetweenNodes LineSpacing.getBlankLinesBetween
  refine ⟨rfl, rfl, ?_, ?_⟩ <;> omega

/-- Witness for C2 at the concrete root-level demo nodes (end line 3,
start line 4: zero blank lines, count non-negative). -/
theorem C2_blank_line_arithmetic_witness :
    BlockPadding.getBlankLinesBetweenNodes rootDemo1 rootDemo2 = 0
  ∧ 0 ≤ BlockPadding.getBlankLinesBetweenNodes rootDemo1 rootDemo2 :=
  ⟨(C2_blank_line_arithmetic rootDemo1 rootDemo2 (by decide)).2.2.1 (by decide),
   (C2_blank_line_arithmetic rootDemo1 rootDemo2 (by decide)).2.2.2⟩

/-- C9: when no token precedes (respectively follows) a node, the
statement-spacing before (respectively after) check returns no diagnostic:
the check is silently skipped. -/
theorem C9_missing_neighbor_skipped (opts : LineSpacing.SpacingOptions)
    (cb ca : LineSpacing.SpacingCtx) (reqB reqA : Nat)
    (hb : cb.prevTokenWithComments = none)
    (ha : ca.nextTokenWithComments = none) :
    LineSpacing.checkLinesBefore opts cb reqB = none ∧
    LineSpacing.checkLinesAfter opts ca reqA = none := by
  constructor
  · unfold LineSpacing.checkLinesBefore
    rw [hb]
    split
    · rfl
    · split <;> rfl
  · unfold LineSpacing.checkLinesAfter
    rw [ha]
    split
    · rfl
    · split <;> rfl

/-- Witness for C9 at a node that is alone in its file. -/
theorem C9_missing_neighbor_skipped_witness :
    LineSpacing.checkLinesBefore {} boundaryCtx 2 = none ∧
    LineSpacing.checkLinesAfter {} boundaryCtx 2 = none :=
  C9_missing_neighbor_skipped {} boundaryCtx boundaryCtx 2 2 rfl rfl

/-- C10: an object or array literal with zero items produces no
diagnostic and no fix, whatever the configuration (in particular with
`multilineStyle` set to `always` or an over-long rendering). -/
theorem C10_empty_literal_exempt (cfg : MultilineFormat.MFConfig)
    (o : MultilineFormat.OLit) (a : MultilineFormat.ALit)
    (ho : o.props = []) (ha : a.elements = []) :
    MultilineFormat.processObjectExpression cfg o = [] ∧
    MultilineFormat.processArrayExpression cfg a = [] := by
  unfold MultilineFormat.processObjectExpression
    MultilineFormat.processArrayExpression
  rw [ho, ha]
  simp

/-- Witness for C10: the empty literals under the `always` style yield no
diagnostics. -/
theorem C10_empty_literal_exempt_witness :
    MultilineFormat.processObjectExpression mfAlwaysCfg c10DemoObj = [] ∧
    MultilineFormat.processArrayExpression mfAlwaysCfg c10DemoArr = [] :=
  C10_empty_literal_exempt mfAlwaysCfg c10DemoObj c10DemoArr rfl rfl

/-- Helper for C3: the multiline checks of the array path never produce
the `singleLineToMultiline` message. -/
theorem arrayMultiline_no_single (cfg : MultilineFormat.MFConfig)
    (a : MultilineFormat.ALit) :
    ∀ d ∈ MultilineFormat.arrayMultilineChecks cfg a,
      d.msg ≠ MultilineFormat.MMsg.singleLineToMultiline := by
  intro d hd
  simp only [MultilineFormat.arrayMultilineChecks] at hd
  repeat' split at hd
  all_goals simp_all

/-- Helper for C3: the colon-alignment check never produces the
`singleLineToMultiline` message. -/
theorem objectColonAlign_no_single (o : MultilineFormat.OLit) :
    ∀ d ∈ MultilineFormat.objectColonAlignmentCheck o,
      d.msg ≠ MultilineFormat.MMsg.singleLineToMultiline := by
  intro d hd
  simp only [MultilineFormat.objectColonAlignmentCheck] at hd
  repeat' split at hd
  all_goals simp_all

/-- Helper for C3: the multiline checks of the object path never produce
the `singleLineToMultiline` message. -/
theorem objectMultiline_no_single (cfg : MultilineFormat.MFConfig)
    (o : MultilineFormat.OLit) :
    ∀ d ∈ MultilineFormat.objectMultilineChecks cfg o,
      d.msg ≠ MultilineFormat.MMsg.singleLineToMultiline := by
  intro d hd
  simp only [MultilineFormat.objectMultilineChecks] at hd
  repeat' split at hd
  all_goals first
  | exact objectColonAlign_no_single o d hd
  | simp_all

/-- C3: a non-empty record or sequence literal gets a
`singleLineToMultiline` diagnostic exactly when it should be multiline
(item count at least `minItems`, or the single-line rendering measured
from its start column exceeds `maxLineLength`, or `multilineStyle` is
`always`), it currently renders on one line, and `multilineStyle` is not
`never`; and a one-line sequence literal with exactly `minItems - 1` items
whose rendering stays within `maxLineLength` yields no diagnostic at all
(under a style other than `always`, which would itself force multiline). -/
theorem C3_collection_threshold (cfg : MultilineFormat.MFConfig)
    (a : MultilineFormat.ALit) (o : MultilineFormat.OLit)
    (hna : a.elements ≠ []) (hno : o.props ≠ []) :
    ((∃ d ∈ MultilineFormat.processArrayExpression cfg a,
        d.msg = MultilineFormat.MMsg.singleLineToMultiline) ↔
      ((a.elements.length ≥ cfg.minItems ∨
          MultilineFormat.wouldExceed cfg a.openColumn a.srcText = true ∨
          cfg.multilineStyle = MultilineFormat.MStyle.always)
        ∧ a.openLine = a.closeLine
        ∧ cfg.multilineStyle ≠ MultilineFormat.MStyle.never))
  ∧ ((∃ d ∈ MultilineFormat.processObjectExpression cfg o,
        d.msg = MultilineFormat.MMsg.singleLineToMultiline) ↔
      ((o.props.length ≥ cfg.minItems ∨
          MultilineFormat.wouldExceed cfg o.openColumn o.srcText = true ∨
          cfg.multilineStyle = MultilineFormat.MStyle.always)
        ∧ o.openLine = o.closeLine
        ∧ cfg.multilineStyle ≠ MultilineFormat.MStyle.never))
  ∧ (a.elements.length + 1 = cfg.minItems →
      MultilineFormat.wouldExceed cfg a.openColumn a.srcText = false →
      a.openLine = a.closeLine →
      cfg.multilineStyle ≠ MultilineFormat.MStyle.always →
      MultilineFormat.processArrayExpression cfg a = []) := by
  have h0a : ¬(a.elements.length = 0) := by simpa using hna
  have h0o : ¬(o.props.length = 0) := by simpa using hno
  refine ⟨⟨?_, ?_⟩, ⟨?_, ?_⟩, ?_⟩
  · rintro ⟨d, hd, hmsg⟩
    by_cases hml : a.openLine = a.closeLine
    · rcases Bool.eq_false_or_eq_true
          (MultilineFormat.wouldExceed cfg a.openColumn a.srcText) with hex | hex <;>
        by_cases hmin : a.elements.length ≥ cfg.minItems <;>
        cases hst : cfg.multilineStyle <;>
        simp_all [MultilineFormat.processArrayExpression, h0a, hml]
    · refine absurd hmsg (arrayMultiline_no_single cfg a d ?_)
      simpa [MultilineFormat.processArrayExpression, h0a, hml] using hd
  · rintro ⟨hsb, hml, hnever⟩
    refine ⟨⟨MultilineFormat.MMsg.singleLineToMultiline,
      MultilineFormat.MFix.reconstruct⟩, ?_, rfl⟩
    rcases hsb with h | h | h <;>
      simp [MultilineFormat.processArrayExpression, h0a, hml, hnever, h]
  · rintro ⟨d, hd, hmsg⟩
    by_cases hml : o.openLine = o.closeLine
    · rcases Bool.eq_false_or_eq_true
          (MultilineFormat.wouldExceed cfg o.openColumn o.srcText) with hex | hex <;>
        by_cases hmin : o.props.length ≥ cfg.minItems <;>
        cases hst : cfg.multilineStyle <;>
        simp_all [MultilineFormat.processObjectExpression, h0o, hml]
    · refine absurd hmsg (objectMultiline_no_single cfg o d ?_)
      simpa [MultilineFormat.processObjectExpression, h0o, hml] using hd
  · rintro ⟨hsb, hml, hnever⟩
    refine ⟨⟨MultilineFormat.MMsg.singleLineToMultiline,
      MultilineFormat.MFix.reconstruct⟩, ?_, rfl⟩
    rcases hsb with h | h | h <;>
      simp [MultilineFormat.processObjectExpression, h0o, hml, hnever, h]
  · intro hcount hex hml hnal
    have hmin : ¬(a.elements.length ≥ cfg.minItems) := by omega
    simp [MultilineFormat.processArrayExpression, h0a, hml, hex, hmin, hnal]

/-- Witness for C3: the one-line two-element array `[1, 2]` under the
default configuration (minItems 3, maxLineLength 80, consistent style)
yields no diagnostic. -/
theorem C3_collection_threshold_witness :
    MultilineFormat.processArrayExpression mfDefaultCfg c3DemoArr = [] :=
  (C3_collection_threshold mfDefaultCfg c3DemoArr objDemoLit
      (by decide) (by decide)).2.2
    (by decide) (by decide) (by decide) (by decide)

/-- The docstring regex test equals the spec-side pattern predicate: an
at-tag occurrence or a (case-sensitive) keyword substring occurrence. -/
theorem docRegexTest_eq_spec (s : List Char) :
    BlockPadding.docRegexTest s =
      (BlockPadding.atTagOccurs s ||
        BlockPadding.docKeywords.any
          (fun k => BlockPadding.substrOccurs k.data s)) := by
  induction s with
  | nil => decide
  | cons c rest ih =>
    simp only [BlockPadding.docRegexTest, BlockPadding.docRegexMatchAt,
      BlockPadding.atTagOccurs, BlockPadding.substrOccurs,
      BlockPadding.docKeywords, List.any_cons, List.any_nil, ih,
      Bool.or_false]
    apply Bool.eq_iff_iff.mpr
    simp only [Bool.or_eq_true]
    tauto

/-- C4 (amended): a comment is classified as a documentation block exactly
when it is a block comment that spans multiple lines (contains a newline)
or matches the tag/keyword pattern, where the keyword match is
case-sensitive (the source regex carries no ignore-case flag). -/
theorem C4_doc_block_detection (c : BlockPadding.Comment) :
    BlockPadding.isDocstring c =
      (decide (c.type = BlockPadding.CommentType.block) &&
        (c.value.data.contains '\n' || BlockPadding.docPatternSpec c.value)) := by
  cases c with
  | mk t v =>
    cases t with
    | block =>
      simp [BlockPadding.isDocstring, BlockPadding.docPatternSpec,
        docRegexTest_eq_spec, Bool.or_assoc]
    | line => simp [BlockPadding.isDocstring]

/-- Counterexample for C4 as stated: the classification is not invariant
under the letter case of the keywords — the single-line block comment
`param` is classified as a doc block while `PARAM` is not. -/
theorem C4_doc_block_case_counterexample :
    BlockPadding.isDocstring
        { type := BlockPadding.CommentType.block, value := "param" } = true
  ∧ BlockPadding.isDocstring
        { type := BlockPadding.CommentType.block, value := "PARAM" } = false := by
  decide

/-- Helper for C7: the order walk after a first matched member with group
`g` produces exactly the spec-side diagnostics of the consecutive matched
pairs. -/
theorem goOrder_matched (ms : List ClassGrouping.Member) :
    ∀ (n : String) (g : ClassGrouping.Group),
      ClassGrouping.goOrder (g.order : Int) (some g) ms =
        ClassGrouping.specOrderDiags
          ((n, g) :: ClassGrouping.matchedMembers ms) := by
  induction ms with
  | nil => intro n g; rfl
  | cons m rest ih =>
    intro n g
    cases hm : m.group with
    | none =>
      simp only [ClassGrouping.goOrder, hm, ClassGrouping.matchedMembers,
        List.filterMap_cons, Option.map_none']
      exact ih n g
    | some g2 =>
      simp only [ClassGrouping.goOrder, hm, ClassGrouping.matchedMembers,
        List.filterMap_cons, Option.map_some']
      have hcast : ((g2.order : Int) < (g.order : Int)) ↔ g2.order < g.order := by
        exact_mod_cast Iff.rfl
      rw [show ClassGrouping.specOrderDiags
            ((n, g) :: (m.name, g2) :: List.filterMap
              (fun m => Option.map (fun g => (m.name, g)) m.group) rest)
          = (if g2.order < g.order then
              [{ memberName := m.name, expectedGroup := some g
                 actualGroup := g2 }]
            else []) ++ ClassGrouping.specOrderDiags
              ((m.name, g2) :: List.filterMap
                (fun m => Option.map (fun g => (m.name, g)) m.group) rest)
          from rfl]
      rw [ih m.name g2]
      by_cases hlt : g2.order < g.order
      · rw [if_pos hlt, if_pos (hcast.mpr hlt)]
        rfl
      · rw [if_neg hlt, if_neg (fun hc => hlt (hcast.mp hc))]
        rfl

/-- Helper for C7: the stateful walk of `checkGroupOrder` equals the
spec-side description over the matched members. -/
theorem checkGroupOrder_eq_spec (members : List ClassGrouping.Member) :
    ClassGrouping.checkGroupOrder members =
      ClassGrouping.specOrderDiags (ClassGrouping.matchedMembers members) := by
  unfold ClassGrouping.checkGroupOrder
  induction members with
  | nil => rfl
  | cons m rest ih =>
    cases hm : m.group with
    | none =>
      simp only [ClassGrouping.goOrder, hm, ClassGrouping.matchedMembers,
        List.filterMap_cons, Option.map_none']
      exact ih
    | some g =>
      have hneg : ¬((g.order : Int) < -1) := by
        have := Int.natCast_nonneg g.order
        omega
      simp only [ClassGrouping.goOrder, hm, ClassGrouping.matchedMembers,
        List.filterMap_cons, Option.map_some', if_neg hneg, List.nil_append]
      exact goOrder_matched rest m.name g

/-- Helper for C7: an empty spec-side diagnostic list means the matched
group orders form a non-decreasing chain. -/
theorem specOrderDiags_nil_chain :
    ∀ l : List (String × ClassGrouping.Group),
      ClassGrouping.specOrderDiags l = [] →
      l.Chain' (fun x y => x.2.order ≤ y.2.order) := by
  intro l
  induction l with
  | nil => intro _; exact List.chain'_nil
  | cons a rest ih =>
    cases rest with
    | nil => intro _; exact List.chain'_singleton a
    | cons b rest2 =>
      intro h
      rw [show ClassGrouping.specOrderDiags (a :: b :: rest2) =
          (if b.2.order < a.2.order then
            [{ memberName := b.1, expectedGroup := some a.2
               actualGroup := b.2 }]
          else []) ++ ClassGrouping.specOrderDiags (b :: rest2) from rfl] at h
      rcases List.append_eq_nil.mp h with ⟨hif, htail⟩
      have hle : a.2.order ≤ b.2.order := by
        by_cases hlt : b.2.order < a.2.order
        · rw [if_pos hlt] at hif
          exact absurd hif (by simp)
        · omega
      exact List.chain'_cons.mpr ⟨hle, ih htail⟩

/-- C7: the group-order diagnostics are exactly those of the spec-side
walk — one diagnostic at each matched member whose group order is smaller
than the previous matched member's, naming the previous (expected) group
and the actual group — and a class with no order diagnostics has
non-decreasing group orders over all matched members in source order. -/
theorem C7_group_order_monotonic (members : List ClassGrouping.Member) :
    ClassGrouping.checkGroupOrder members
        = ClassGrouping.specOrderDiags (ClassGrouping.matchedMembers members)
  ∧ (ClassGrouping.checkGroupOrder members = [] →
      (ClassGrouping.matchedMembers members).Pairwise
        (fun x y => x.2.order ≤ y.2.order)) := by
  refine ⟨checkGroupOrder_eq_spec members, fun h => ?_⟩
  have hc : (ClassGrouping.matchedMembers members).Chain'
      (fun x y => x.2.order ≤ y.2.order) :=
    specOrderDiags_nil_chain _ (by rw [← checkGroupOrder_eq_spec]; exact h)
  haveI : IsTrans (String × ClassGrouping.Group)
      (fun x y => x.2.order ≤ y.2.order) :=
    ⟨fun _ _ _ h1 h2 => le_trans h1 h2⟩
  exact List.chain'_iff_pairwise.mp hc

/-- C1 (code-bug evaluation): on the run `const a = 1;` /
`const longName = 2;` (declarators at column 6, operator columns 8 and
15), the target column is the maximum 15 and only the first declarator is
reported — but the offered fix right-pads the identifier by
`target - idText.length` spaces, so after replacing the declarator's text
(which starts at column 6) the operator lands at column 6 + 15 = 21, not
at the target column 15; re-running the rule on the fixed run reports the
other declarator as misaligned. -/
theorem C1_alignment_fix_misses_target :
    AlignedAssignments.getMaxEqualsColumn [alignDemoA, alignDemoB] = 15
  ∧ (AlignedAssignments.checkAlignment alignDefaultOpts
      [alignDemoA, alignDemoB]).map (fun r => r.declarator.idText) = ["a"]
  ∧ AlignedAssignments.getFixedDeclaration alignDemoA 15 none
      = "a              = 1"
  ∧ AlignedAssignments.fixedEqualsColumn alignDemoA
      (AlignedAssignments.getFixedDeclaration alignDemoA 15 none) = 21
  ∧ (21 : Nat) ≠ 15
  ∧ (AlignedAssignments.checkAlignment alignDefaultOpts
      [alignDemoAFixed, alignDemoB]).map (fun r => r.declarator.idText)
      = ["longName"] := by
  decide

/-- Counterexample for C5 as stated: two consecutive export declarations
(same category) with zero blank lines and `skipImportGroups` enabled are
not exempted — the rule still reports a diagnostic, because the source
only exempts pairs of import declarations. -/
theorem C5_same_category_counterexample :
    LineSpacing.checkLinesBefore {} exportAdjacentCtx 1 =
      some { msg := LineSpacing.SpacingMsg.missingLinesBefore
             expected := 1, actual := 0
             fix := some { start := 29, stop := 30, replacement := "\n\n" } } := by
  decide

/-- C5 (amended): the same-category exemption applies exactly to import
declarations — when `skipImportGroups` is enabled and an import
declaration directly neighbours another import declaration, the before
and after checks are skipped and produce no diagnostic. -/
theorem C5_import_group_exemption (opts : LineSpacing.SpacingOptions)
    (cb ca : LineSpacing.SpacingCtx) (reqB reqA : Nat)
    (hskip : opts.skipImportGroups = true)
    (hb1 : cb.nodeType = LineSpacing.NodeType.importDecl)
    (hb2 : cb.prevNodeType = some LineSpacing.NodeType.importDecl)
    (ha1 : ca.nodeType = LineSpacing.NodeType.importDecl)
    (ha2 : ca.nextNodeType = some LineSpacing.NodeType.importDecl) :
    LineSpacing.checkLinesBefore opts cb reqB = none ∧
    LineSpacing.checkLinesAfter opts ca reqA = none := by
  constructor
  · simp [LineSpacing.checkLinesBefore, hb1, hb2, hskip, LineSpacing.isImportType]
  · simp [LineSpacing.checkLinesAfter, ha1, ha2, hskip, LineSpacing.isImportType]

/-- Witness for C5 (amended): an import declaration directly followed by
another import declaration with zero blank lines yields no diagnostic in
either direction. -/
theorem C5_import_group_exemption_witness :
    LineSpacing.checkLinesBefore {} importAdjacentCtx 1 = none ∧
    LineSpacing.checkLinesAfter {} importAdjacentCtx 1 = none :=
  C5_import_group_exemption {} importAdjacentCtx importAdjacentCtx 1 1
    rfl rfl rfl rfl rfl

/-- Helper for C6: a consecutive pair whose blank count is off is
reported. -/
theorem checkRoot_mem_intro (R : Nat) :
    ∀ (nodes : List BlockPadding.RNode) (c n : BlockPadding.RNode),
      (c, n) ∈ BlockPadding.adjPairs nodes →
      BlockPadding.getBlankLinesBetweenNodes c n ≠ (R : Int) →
      BlockPadding.rootDiag R c n ∈
        BlockPadding.checkRootLevelBlankLines R nodes := by
  intro nodes
  induction nodes with
  | nil => intro c n hmem _; simp [BlockPadding.adjPairs] at hmem
  | cons a tail ih =>
    cases tail with
    | nil => intro c n hmem _; simp [BlockPadding.adjPairs] at hmem
    | cons b rest =>
      intro c n hmem hne
      rw [show BlockPadding.adjPairs (a :: b :: rest) =
          (a, b) :: BlockPadding.adjPairs (b :: rest) from rfl] at hmem
      rw [show BlockPadding.checkRootLevelBlankLines R (a :: b :: rest) =
          (if BlockPadding.getBlankLinesBetweenNodes a b ≠ (R : Int) then
            [BlockPadding.rootDiag R a b]
          else []) ++ BlockPadding.checkRootLevelBlankLines R (b :: rest)
          from rfl]
      rcases List.mem_cons.mp hmem with heq | hmem2
      · have hc : c = a := congrArg Prod.fst heq
        have hn : n = b := congrArg Prod.snd heq
        subst hc; subst hn
        exact List.mem_append_left _ (by rw [if_pos hne]; exact List.mem_singleton.mpr rfl)
      · exact List.mem_append_right _ (ih c n hmem2 hne)

/-- Helper for C6: every reported diagnostic comes from a consecutive
pair whose blank count is off. -/
theorem checkRoot_mem_elim (R : Nat) :
    ∀ (nodes : List BlockPadding.RNode) (d : BlockPadding.PaddingDiag),
      d ∈ BlockPadding.checkRootLevelBlankLines R nodes →
      ∃ c n, (c, n) ∈ BlockPadding.adjPairs nodes ∧
        BlockPadding.getBlankLinesBetweenNodes c n ≠ (R : Int) ∧
        d = BlockPadding.rootDiag R c n := by
  intro nodes
  induction nodes with
  | nil => intro d hd; exact absurd hd (by simp [BlockPadding.checkRootLevelBlankLines])
  | cons a tail ih =>
    cases tail with
    | nil => intro d hd; exact absurd hd (by simp [BlockPadding.checkRootLevelBlankLines])
    | cons b rest =>
      intro d hd
      rw [show BlockPadding.checkRootLevelBlankLines R (a :: b :: rest) =
          (if BlockPadding.getBlankLinesBetweenNodes a b ≠ (R : Int) then
            [BlockPadding.rootDiag R a b]
          else []) ++ BlockPadding.checkRootLevelBlankLines R (b :: rest)
          from rfl] at hd
      rcases List.mem_append.mp hd with h1 | h2
      · by_cases hab : BlockPadding.getBlankLinesBetweenNodes a b ≠ (R : Int)
        · rw [if_pos hab] at h1
          refine ⟨a, b, ?_, hab, List.mem_singleton.mp h1⟩
          exact List.mem_cons_self _ _
        · rw [if_neg hab] at h1
          exact absurd h1 (List.not_mem_nil d)
      · rcases ih d h2 with ⟨c, n, hmem, hne, hdeq⟩
        exact ⟨c, n, List.mem_cons_of_mem _ hmem, hne, hdeq⟩

/-- C6: for consecutive root-level siblings a diagnostic is produced
exactly when the blank-line count between them differs from the required
count `R`; every diagnostic belongs to such a pair; and the diagnostic's
fix replaces exactly the span from the end of the previous node's last
token to the start of the next node's first token with the newline
character repeated `R + 1` times, carrying `expected = R` and the actual
blank count. -/
theorem C6_root_padding (R : Nat) (nodes : List BlockPadding.RNode) :
    (∀ c n, (c, n) ∈ BlockPadding.adjPairs nodes →
      (BlockPadding.rootDiag R c n ∈
          BlockPadding.checkRootLevelBlankLines R nodes
        ↔ BlockPadding.getBlankLinesBetweenNodes c n ≠ (R : Int)))
  ∧ (∀ d ∈ BlockPadding.checkRootLevelBlankLines R nodes,
      ∃ c n, (c, n) ∈ BlockPadding.adjPairs nodes ∧
        BlockPadding.getBlankLinesBetweenNodes c n ≠ (R : Int) ∧
        d = BlockPadding.rootDiag R c n)
  ∧ (∀ c n, (BlockPadding.rootDiag R c n).fix =
      { start := c.lastTokEnd, stop := n.firstTokStart
        replacement := LineSpacing.newlines (R + 1) })
  ∧ (∀ c n, (BlockPadding.rootDiag R c n).expected = R ∧
      (BlockPadding.rootDiag R c n).actual =
        BlockPadding.getBlankLinesBetweenNodes c n) := by
  refine ⟨fun c n _ => ⟨fun hmem => ?_, fun hne => checkRoot_mem_intro R nodes c n (by assumption) hne⟩,
    checkRoot_mem_elim R nodes, fun c n => rfl, fun c n => ⟨rfl, rfl⟩⟩
  rcases checkRoot_mem_elim R nodes _ hmem with ⟨c2, n2, _, hne2, hdeq⟩
  have hact : BlockPadding.getBlankLinesBetweenNodes c n =
      BlockPadding.getBlankLinesBetweenNodes c2 n2 :=
    congrArg BlockPadding.PaddingDiag.actual hdeq
  rw [hact]
  exact hne2

/-- Witness for C6 at the concrete demo pair (spec scenario: two siblings
with zero blank lines under the default requirement 2): one diagnostic at
the second node with expected 2, actual 0, whose fix replaces the span
`[40, 41)` with three newline characters. -/
theorem C6_root_padding_witness :
    (BlockPadding.rootDiag 2 rootDemo1 rootDemo2 ∈
      BlockPadding.checkRootLevelBlankLines 2 [rootDemo1, rootDemo2])
  ∧ BlockPadding.rootDiag 2 rootDemo1 rootDemo2 =
      { nodeStartLine := 4, expected := 2, actual := 0
        fix := { start := 40, stop := 41, replacement := "\n\n\n" } } :=
  ⟨((C6_root_padding 2 [rootDemo1, rootDemo2]).1 rootDemo1 rootDemo2
      (by decide)).mpr (by decide), by decide⟩

/-- Witness for C7 at a class whose members follow the default order
(static property, constructor, instance method): no diagnostics, so the
matched group orders are pairwise non-decreasing. -/
theorem C7_group_order_monotonic_witness :
    (ClassGrouping.matchedMembers groupDemoMembers).Pairwise
      (fun x y => x.2.order ≤ y.2.order) :=
  (C7_group_order_monotonic groupDemoMembers).2 (by decide)

/-- Counterexample for C8 as stated: on `trailingDemoText` (the last
element is followed by a space and then the separator) with
`trailingComma = never`, the offered fix removes the range `[5, 7)` —
the separator together with the space before it — which differs from
removing only the separator's own range `[6, 7)`. -/
theorem C8_minimal_edit_counterexample :
    MultilineFormat.processArrayExpression trailingNeverCfg trailingDemoArr =
      [{ msg := MultilineFormat.MMsg.unexpectedTrailingComma
         fix := MultilineFormat.MFix.removeRange 5 7 }]
  ∧ MultilineFormat.applyRangeEdit trailingDemoText 5 7 "" = "[\n  1\n]"
  ∧ MultilineFormat.applyRangeEdit trailingDemoText 6 7 "" = "[\n  1 \n]"
  ∧ MultilineFormat.applyRangeEdit trailingDemoText 5 7 "" ≠
      MultilineFormat.applyRangeEdit trailingDemoText 6 7 "" := by
  decide

/-- C8 (amended): for a multiline literal reaching the trailing-separator
check, under `trailingComma = always` with no separator after the last
item the rule reports `missingTrailingComma` and its fix is a pure
insertion of a single separator immediately after the last item, leaving
every other character unchanged; under `never` with a separator present
the rule reports `unexpectedTrailingComma` and its fix removes exactly
the span from the end of the last item to the end of the separator (the
separator together with any characters between the last item and it). -/
theorem C8_trailing_separator_fix (cfg cfg2 : MultilineFormat.MFConfig)
    (o : MultilineFormat.OLit) (a : MultilineFormat.ALit)
    (lastP : MultilineFormat.OProp) (lastE : MultilineFormat.Item)
    (tokO tokA : MultilineFormat.MTok) (textO textA : String)
    (ho1 : cfg.trailingComma = MultilineFormat.TComma.always)
    (ho2 : o.openLine ≠ o.closeLine)
    (ho3 : o.props.filter
      (fun p => p.startLine ≠ o.openLine &&
        p.startColumn ≠ o.openColumn + cfg.indentation) = [])
    (ho4 : cfg.multilineStyle = MultilineFormat.MStyle.always →
      MultilineFormat.allElementsOnSeparateLines cfg o.openLine o.closeLine
        (o.props.map MultilineFormat.OProp.span) = true)
    (ho5 : o.props.getLast? = some lastP)
    (ho6 : o.tokenAfterLast = some tokO)
    (ho7 : tokO.value ≠ ",")
    (ha1 : cfg2.trailingComma = MultilineFormat.TComma.never)
    (ha2 : a.openLine ≠ a.closeLine)
    (ha3 : (a.elements.filterMap id).filter
      (fun e => e.startLine ≠ a.openLine &&
        e.startColumn ≠ a.openColumn + cfg2.indentation) = [])
    (ha4 : cfg2.multilineStyle = MultilineFormat.MStyle.always →
      MultilineFormat.allElementsOnSeparateLines cfg2 a.openLine a.closeLine
        ((a.elements.filterMap id).map MultilineFormat.Item.span) = true)
    (ha5 : (a.elements.filterMap id).getLast? = some lastE)
    (ha6 : a.tokenAfterLast = some tokA)
    (ha7 : tokA.value = ",") :
    MultilineFormat.processObjectExpression cfg o =
      [{ msg := MultilineFormat.MMsg.missingTrailingComma
         fix := MultilineFormat.MFix.insertAfter lastP.rangeEnd "," }]
  ∧ MultilineFormat.applyRangeEdit textO lastP.rangeEnd lastP.rangeEnd "," =
      String.mk (textO.data.take lastP.rangeEnd ++
        ',' :: textO.data.drop lastP.rangeEnd)
  ∧ MultilineFormat.processArrayExpression cfg2 a =
      [{ msg := MultilineFormat.MMsg.unexpectedTrailingComma
         fix := MultilineFormat.MFix.removeRange lastE.rangeEnd tokA.rangeEnd }]
  ∧ MultilineFormat.applyRangeEdit textA lastE.rangeEnd tokA.rangeEnd "" =
      String.mk (textA.data.take lastE.rangeEnd ++
        textA.data.drop tokA.rangeEnd) := by
  have hneO : o.props ≠ [] := by
    intro h
    rw [h] at ho5
    simp at ho5
  have h0o : ¬(o.props.length = 0) := by simpa using hneO
  have hneA : a.elements ≠ [] := by
    intro h
    rw [h] at ha5
    simp at ha5
  have h0a : ¬(a.elements.length = 0) := by simpa using hneA
  have hnlO : (!MultilineFormat.allElementsOnSeparateLines cfg o.openLine
      o.closeLine (o.props.map MultilineFormat.OProp.span) &&
      cfg.multilineStyle = MultilineFormat.MStyle.always) = false := by
    by_cases hs : cfg.multilineStyle = MultilineFormat.MStyle.always
    · rw [ho4 hs]
      simp
    · simp [hs]
  have hnlA : (!MultilineFormat.allElementsOnSeparateLines cfg2 a.openLine
      a.closeLine ((a.elements.filterMap id).map MultilineFormat.Item.span) &&
      cfg2.multilineStyle = MultilineFormat.MStyle.always) = false := by
    by_cases hs : cfg2.multilineStyle = MultilineFormat.MStyle.always
    · rw [ha4 hs]
      simp
    · simp [hs]
  refine ⟨?_, ?_, ?_, ?_⟩
  · rw [show MultilineFormat.processObjectExpression cfg o =
        MultilineFormat.objectMultilineChecks cfg o by
      simp [MultilineFormat.processObjectExpression, h0o, ho2]]
    simp [MultilineFormat.objectMultilineChecks, ho3, hnlO, ho5, ho6, ho1, ho7]
    intro p hp h1
    have hp2 := List.filter_eq_nil_iff.mp ho3 p hp
    simp at hp2
    exact hp2 h1
  · simp [MultilineFormat.applyRangeEdit]
  · rw [show MultilineFormat.processArrayExpression cfg2 a =
        MultilineFormat.arrayMultilineChecks cfg2 a by
      simp [MultilineFormat.processArrayExpression, h0a, ha2]]
    simp [MultilineFormat.arrayMultilineChecks, ha3, hnlA, ha5, ha6, ha1, ha7]
    intro e he h1
    have hmem : e ∈ List.filterMap id a.elements :=
      List.mem_filterMap.mpr ⟨some e, he, rfl⟩
    have he2 := List.filter_eq_nil_iff.mp ha3 e hmem
    simp at he2
    exact he2 h1
  · simp [MultilineFormat.applyRangeEdit]

/-- Witness for C8 (amended) at the concrete demo literals: the object
missing its trailing separator gets the single-character insertion at
offset 16; the array with a stray separator gets the removal of the span
`[5, 7)`. -/
theorem C8_trailing_separator_fix_witness :
    MultilineFormat.processObjectExpression mfDefaultCfg objDemoLit =
      [{ msg := MultilineFormat.MMsg.missingTrailingComma
         fix := MultilineFormat.MFix.insertAfter 16 "," }]
  ∧ MultilineFormat.applyRangeEdit objDemoText 16 16 "," =
      String.mk (objDemoText.data.take 16 ++ ',' :: objDemoText.data.drop 16)
  ∧ MultilineFormat.processArrayExpression trailingNeverCfg trailingDemoArr =
      [{ msg := MultilineFormat.MMsg.unexpectedTrailingComma
         fix := MultilineFormat.MFix.removeRange 5 7 }]
  ∧ MultilineFormat.applyRangeEdit trailingDemoText 5 7 "" =
      String.mk (trailingDemoText.data.take 5 ++ trailingDemoText.data.drop 7) :=
  C8_trailing_separator_fix mfDefaultCfg trailingNeverCfg objDemoLit
    trailingDemoArr objDemoLastProp trailingDemoItem objDemoCloseTok
    trailingDemoComma objDemoText trailingDemoText
    (by decide) (by decide) (by decide) (by decide) (by decide) (by decide)
    (by decide) (by decide) (by decide) (by decide) (by decide) (by decide)
    (by decide) (by decide)
